import Mathlib

/-
Verification of the folseparators-tla core (separators/logic.py, separators/check.py,
separators/learn.py, separators/cvc4.py) against its natural-language specification.

Shallow embedding conventions:
* Python dicts are association lists; `alookup` is dictionary lookup, `dinsert` is
  dictionary assignment (replace in place, else append, as CPython preserves insertion
  order), and the defaultdict `Model.elems_of_sort` is read through `elemsOfSort`,
  which returns `[]` for a missing key.
* Python sets of tuples are duplicate-free lists with `setAdd` for `set.add`.
* Functions that can raise an uncaught Python exception return `Option`/`Except`;
  the `none`/`.error` value marks the raising execution path.
* External effects (the z3 solver, the cvc4 subprocess, the separator collaborator)
  are passed in as explicit function parameters; everything the repository itself
  computes around them is embedded from the source.
-/

/-- Dictionary lookup on an association list (Python `d[k]` / `k in d`). -/
def alookup {κ α : Type} [DecidableEq κ] : List (κ × α) → κ → Option α
  | [], _ => none
  | (k, w) :: rest, x => if k = x then some w else alookup rest x

/-- Dictionary assignment `d[k] = v`: replace the entry in place if the key is
present, otherwise append it (CPython dicts keep insertion order). -/
def dinsert {κ α : Type} [DecidableEq κ] : List (κ × α) → κ → α → List (κ × α)
  | [], k, v => [(k, v)]
  | (k', w) :: rest, k, v =>
      if k' = k then (k, v) :: rest else (k', w) :: dinsert rest k v

/-- Set insertion `s.add(t)` for a Python set represented as a duplicate-free list. -/
def setAdd {α : Type} [DecidableEq α] (s : List α) (t : α) : List α :=
  if t ∈ s then s else s ++ [t]

/-- The signature part of a FOL structure (class `Signature` in logic.py).
`sorts` is a Python set of names, the other fields are dicts. -/
structure Signature where
  sorts : List String
  sort_names : List String
  sort_indices : List (String × Nat)
  relations : List (String × List String)
  constants : List (String × String)
  functions : List (String × (List String × String))
deriving DecidableEq, Repr

/-- Terms (classes `Var` and `Func` in logic.py). -/
inductive Term where
  | Var (v : String)
  | Func (f : String) (args : List Term)
deriving Repr

/-- Formulas (classes `And`, `Or`, `Not`, `Equal`, `Relation`, `Forall`, `Exists`
in logic.py). `Equal` stores its two arguments as the list `args = [a, b]` in the
source; here they are the two fields `a` and `b`. -/
inductive Formula where
  | And (c : List Formula)
  | Or (c : List Formula)
  | Not (f : Formula)
  | Equal (a b : Term)
  | Relation (rel : String) (args : List Term)
  | Forall (v : String) (sort : String) (f : Formula)
  | Exists (v : String) (sort : String) (f : Formula)
deriving Repr

/-- A finite relational structure (class `Model` in logic.py). Element ids are the
positions of first insertion; `relations` maps a relation name to its set of
tuples, `functions` maps a function name to its (argument-tuple → result) dict. -/
structure Model where
  label : String
  names : List String
  elems : List (String × Nat)
  sorts : List String
  elems_of_sort : List (String × List Nat)
  elems_of_sort_index : List (List Nat)
  constants : List (String × Nat)
  relations : List (String × List (List Nat))
  functions : List (String × List (List Nat × Nat))
  sig : Signature
deriving DecidableEq, Repr

/-- Read of the defaultdict `model.elems_of_sort[sort]`: a missing sort name
yields the empty list (the source's `defaultdict(list)`). -/
def elemsOfSort (m : Model) (sort : String) : List Nat :=
  (alookup m.elems_of_sort sort).getD []

mutual

/-- Term evaluation (`resolve_term` in check.py). A variable is looked up first in
the assumptions, then in the model's constant table, else the source raises
`RuntimeError(f"variable {term.var} not defined")`. A function application first
fetches `model.functions[term.f]` (a `KeyError` if absent — rendered as the
"undefined function application" error the spec names), then resolves the
arguments left to right, then looks the tuple up in that dict (again a `KeyError`
if absent). -/
def resolve_term (t : Term) (m : Model) (assumptions : List (String × Nat)) :
    Except String Nat :=
  match t with
  | .Var v =>
      match alookup assumptions v with
      | some e => .ok e
      | none =>
          match alookup m.constants v with
          | some e => .ok e
          | none => .error ("variable " ++ v ++ " not defined")
  | .Func f args =>
      match alookup m.functions f with
      | none => .error "undefined function application"
      | some tbl =>
          match resolve_terms args m assumptions with
          | .error e => .error e
          | .ok es =>
              match alookup tbl es with
              | some r => .ok r
              | none => .error "undefined function application"
termination_by (sizeOf t, 0)

/-- The list comprehension `[resolve_term(a, model, assumptions) for a in args]`:
arguments are resolved left to right and the first exception propagates. -/
def resolve_terms (ts : List Term) (m : Model) (assumptions : List (String × Nat)) :
    Except String (List Nat) :=
  match ts with
  | [] => .ok []
  | t :: rest =>
      match resolve_term t m assumptions with
      | .error e => .error e
      | .ok e =>
          match resolve_terms rest m assumptions with
          | .error e2 => .error e2
          | .ok es => .ok (e :: es)
termination_by (sizeOf ts, 0)

end

mutual

/-- The direct evaluator (`check` in check.py). The extension of the assumption
dict `{**assumptions, formula.var: e}` is embedded as the prepended entry
`(v, e) :: assumptions`, which has the same lookup behaviour. -/
def check (formula : Formula) (m : Model) (assumptions : List (String × Nat)) :
    Except String Bool :=
  match formula with
  | .And cs => checkAnd cs m assumptions
  | .Or cs => checkOr cs m assumptions
  | .Not g =>
      match check g m assumptions with
      | .error e => .error e
      | .ok b => .ok (!b)
  | .Equal t1 t2 =>
      match resolve_term t1 m assumptions with
      | .error e => .error e
      | .ok a =>
          match resolve_term t2 m assumptions with
          | .error e => .error e
          | .ok b => .ok (a == b)
  | .Relation r args =>
      match resolve_terms args m assumptions with
      | .error e => .error e
      | .ok es =>
          match alookup m.relations r with
          | some tuples => .ok (es ∈ tuples)
          | none => .error "undefined relation"
  | .Forall v sort g => checkForallLoop g m assumptions v (elemsOfSort m sort)
  | .Exists v sort g => checkExistsLoop g m assumptions v (elemsOfSort m sort)
termination_by (sizeOf formula, 0)

/-- The conjunct loop of `check` on `And`: stop at the first false conjunct. -/
def checkAnd (cs : List Formula) (m : Model) (assumptions : List (String × Nat)) :
    Except String Bool :=
  match cs with
  | [] => .ok true
  | c :: rest =>
      match check c m assumptions with
      | .error e => .error e
      | .ok b => if b then checkAnd rest m assumptions else .ok false
termination_by (sizeOf cs, 0)

/-- The disjunct loop of `check` on `Or`: stop at the first true disjunct. -/
def checkOr (cs : List Formula) (m : Model) (assumptions : List (String × Nat)) :
    Except String Bool :=
  match cs with
  | [] => .ok false
  | c :: rest =>
      match check c m assumptions with
      | .error e => .error e
      | .ok b => if b then .ok true else checkOr rest m assumptions
termination_by (sizeOf cs, 0)

/-- The universe loop of `check` on `Forall`: fail fast on the first falsifying
element of the bound sort's universe. -/
def checkForallLoop (g : Formula) (m : Model) (assumptions : List (String × Nat))
    (v : String) (es : List Nat) : Except String Bool :=
  match es with
  | [] => .ok true
  | e :: rest =>
      match check g m ((v, e) :: assumptions) with
      | .error err => .error err
      | .ok b => if b then checkForallLoop g m assumptions v rest else .ok false
termination_by (sizeOf g, es.length + 1)

/-- The universe loop of `check` on `Exists`: succeed fast on the first satisfying
element of the bound sort's universe. -/
def checkExistsLoop (g : Formula) (m : Model) (assumptions : List (String × Nat))
    (v : String) (es : List Nat) : Except String Bool :=
  match es with
  | [] => .ok false
  | e :: rest =>
      match check g m ((v, e) :: assumptions) with
      | .error err => .error err
      | .ok b => if b then .ok true else checkExistsLoop g m assumptions v rest
termination_by (sizeOf g, es.length + 1)

end

/-- Variable-binding environment (class `Environment` in logic.py): a dict of
current bindings plus a stack of bound names. The Python list is used as a stack
(append and pop at the end); it is modelled with its top at the head. -/
structure Environment where
  sig : Signature
  bound : List (String × String)
  stack : List String
deriving DecidableEq, Repr

/-- `Environment.bind`: `self.bound[v] = sort; self.stack.append(v)`. A previous
binding of `v` is overwritten, not saved. -/
def Environment.bind (e : Environment) (v sort : String) : Environment :=
  { e with bound := dinsert e.bound v sort, stack := v :: e.stack }

/-- `Environment.pop`: read the top of the stack and delete that name from the
binding dict (`del self.bound[v]`). On an empty stack the source raises
`IndexError`; that case is returned unchanged here and is never exercised below. -/
def Environment.pop (e : Environment) : Environment :=
  match e.stack with
  | [] => e
  | v :: rest => { e with bound := e.bound.filter (fun p => p.1 != v), stack := rest }

/-- `Environment.lookup_var`: bound variables first, then the signature's
constants, else `None`. -/
def Environment.lookup_var (e : Environment) (x : String) : Option String :=
  match alookup e.bound x with
  | some s => some s
  | none => alookup e.sig.constants x

mutual

/-- `rename_free_vars_term` in logic.py: `mapping.get(t.var, t.var)` on a
variable, recursion on function arguments. -/
def rename_free_vars_term (t : Term) (mapping : List (String × String)) : Term :=
  match t with
  | .Var v => .Var ((alookup mapping v).getD v)
  | .Func f args => .Func f (rename_terms_list args mapping)
termination_by sizeOf t

/-- The argument-list comprehension inside `rename_free_vars_term`. -/
def rename_terms_list (ts : List Term) (mapping : List (String × String)) : List Term :=
  match ts with
  | [] => []
  | t :: rest => rename_free_vars_term t mapping :: rename_terms_list rest mapping
termination_by sizeOf ts

end

mutual

/-- `rename_free_vars` in logic.py. On a quantifier the source computes
`m = mapping if f.var not in mapping else dict((a,b) for a,b in mapping.items() if a != f.var)`
and recurses into the body with `m`. -/
def rename_free_vars (f : Formula) (mapping : List (String × String)) : Formula :=
  match f with
  | .And cs => .And (rename_formulas_list cs mapping)
  | .Or cs => .Or (rename_formulas_list cs mapping)
  | .Not g => .Not (rename_free_vars g mapping)
  | .Equal t1 t2 =>
      .Equal (rename_free_vars_term t1 mapping) (rename_free_vars_term t2 mapping)
  | .Relation r args => .Relation r (rename_terms_list args mapping)
  | .Forall v sort g =>
      .Forall v sort (rename_free_vars g
        (if (alookup mapping v).isSome then mapping.filter (fun p => p.1 != v) else mapping))
  | .Exists v sort g =>
      .Exists v sort (rename_free_vars g
        (if (alookup mapping v).isSome then mapping.filter (fun p => p.1 != v) else mapping))
termination_by sizeOf f

/-- The conjunct/disjunct-list comprehension inside `rename_free_vars`. -/
def rename_formulas_list (cs : List Formula) (mapping : List (String × String)) :
    List Formula :=
  match cs with
  | [] => []
  | c :: rest => rename_free_vars c mapping :: rename_formulas_list rest mapping
termination_by sizeOf cs

end

/-- Append `e` to the defaultdict entry `elems_of_sort[sort]` (created as `[]` on
a missing key). -/
def dappend (l : List (String × List Nat)) (k : String) (e : Nat) :
    List (String × List Nat) :=
  match l with
  | [] => [(k, [e])]
  | (k', w) :: rest => if k' = k then (k', w ++ [e]) :: rest else (k', w) :: dappend rest k e

/-- `Model.add_elem`. Returns `some (newModel, wasNew)`; a duplicate name is a
no-op returning `false`. The outer `Option` is the uncaught-exception path: on a
fresh name the source indexes `self.sig.sort_indices[sort]` (a possible
`KeyError`) and `self.elems_of_sort_index[...]` (a possible `IndexError`). -/
def Model.add_elem (m : Model) (name sort : String) : Option (Model × Bool) :=
  if (alookup m.elems name).isSome then some (m, false)
  else
    let elem_id := m.names.length
    match alookup m.sig.sort_indices sort with
    | none => none
    | some i =>
        if h : i < m.elems_of_sort_index.length then
          some ({ m with
            elems := dinsert m.elems name elem_id,
            elems_of_sort := dappend m.elems_of_sort sort elem_id,
            elems_of_sort_index := m.elems_of_sort_index.set i (m.elems_of_sort_index[i] ++ [elem_id]),
            sorts := m.sorts ++ [sort],
            names := m.names ++ [name] }, true)
        else none

/-- `Model.add_constant`. A duplicate constant name is a no-op returning `false`;
otherwise `self.constants[name] = self.elems[elem]`, where a missing element name
raises `KeyError` (the outer `none`). -/
def Model.add_constant (m : Model) (name elem : String) : Option (Model × Bool) :=
  if (alookup m.constants name).isSome then some (m, false)
  else
    match alookup m.elems elem with
    | none => none
    | some e => some ({ m with constants := dinsert m.constants name e }, true)

/-- The generator `tuple(self.elems[a] for a in args)`: each name is looked up in
the element table, a missing name raises `KeyError`. -/
def elemsOf (m : Model) : List String → Option (List Nat)
  | [] => some []
  | a :: rest =>
      match alookup m.elems a with
      | none => none
      | some e =>
          match elemsOf m rest with
          | none => none
          | some es => some (e :: es)

/-- `Model.add_relation`. The source is annotated `-> None` and has no return
statement, so its Python return value is `None`: the second component of the
result pair models that return value and is always `none` (never a boolean).
`self.relations[rel]` raises `KeyError` on an undeclared relation (outer `none`). -/
def Model.add_relation (m : Model) (rel : String) (args : List String) :
    Option (Model × Option Bool) :=
  match alookup m.relations rel with
  | none => none
  | some tuples =>
      match elemsOf m args with
      | none => none
      | some t => some ({ m with relations := dinsert m.relations rel (setAdd tuples t) }, none)

/-- `Model.add_function`. As with `add_relation` the source returns `None`,
modelled by the always-`none` second component. Python evaluates the assignment
`self.functions[func][tuple(...)] = self.elems[result]` right side first. -/
def Model.add_function (m : Model) (func : String) (args : List String) (result : String) :
    Option (Model × Option Bool) :=
  match alookup m.elems result with
  | none => none
  | some r =>
      match alookup m.functions func with
      | none => none
      | some tbl =>
          match elemsOf m args with
          | none => none
          | some t => some ({ m with functions := dinsert m.functions func (dinsert tbl t r) }, none)

/-- `itertools.product` over a list of universes, first factor outermost. -/
def listProd : List (List Nat) → List (List Nat)
  | [] => [[]]
  | l :: ls => l.flatMap (fun x => (listProd ls).map (fun t => x :: t))

/-- `model_is_complete_wrt_sig` in logic.py: every declared sort is inhabited,
every constant and relation has an entry, and every function's dict covers the
full cross-product of its argument sorts' current universes. -/
def model_is_complete_wrt_sig (m : Model) (sig : Signature) : Bool :=
  (sig.sorts.all fun sort => (elemsOfSort m sort).length != 0) &&
  (sig.constants.all fun c => (alookup m.constants c.1).isSome) &&
  (sig.relations.all fun r => (alookup m.relations r.1).isSome) &&
  (sig.functions.all fun fe =>
    match alookup m.functions fe.1 with
    | none => false
    | some tbl => (listProd (fe.2.1.map (elemsOfSort m))).all fun t => (alookup tbl t).isSome)

/-- The solver's answer kind (z3's `CheckSatResult` values `sat`/`unsat`/`unknown`). -/
inductive CheckSatResult where
  | sat
  | unsat
  | unknown
deriving DecidableEq, Repr

/-- The line `M.label = label` of `extract_model` in learn.py, also the
assignments `m.label = '-'` / `m.label = '+'` in `find_model_or_equivalence_cvc4`. -/
def set_label (m : Model) (label : String) : Model := { m with label := label }

/-- The minimization loop `for k in range(1, 100000)` of `find_model_or_equivalence`:
re-solve with the sort-size bound `k`, returning the first witness model found.
`fmB a b k` abstracts one bounded round: push, `bound_sort_counts` with bound `k`,
`fm(a, b, ...)`, pop; its model component is already extracted from z3. -/
def minimizeLoop (fmB : Formula → Formula → Nat → CheckSatResult × Option Model)
    (a b : Formula) : Nat → Nat → Option Model
  | 0, _ => none
  | fuel + 1, k =>
      match (fmB a b k).2 with
      | some m => some m
      | none => minimizeLoop fmB a b fuel (k + 1)

/-- The whole `for k in range(1, 100000)` loop: 99999 rounds starting at `k = 1`;
falling out of the loop is the source's `assert False`. -/
def minimizeModel (fmB : Formula → Formula → Nat → CheckSatResult × Option Model)
    (a b : Formula) : Option Model :=
  minimizeLoop fmB a b 99999 1

/-- `find_model_or_equivalence` in learn.py, with the z3 interaction abstracted:
`fmO a b` is the unbounded query `fm(a, b, env, s, t)` — assert `a ∧ ¬b`, check —
whose model component is non-`none` exactly when the check was `sat`, already
extracted to a `Model`; `fmB` is the bounded variant used by the minimization
loop. The result is `some (some m)` for a counterexample, `some none` for
equivalence, and `none` for a raised exception (`assert False` after an
exhausted minimization loop, or the final
`RuntimeError("Z3 did not produce equivalence or model")`). -/
def find_model_or_equivalence
    (fmO : Formula → Formula → CheckSatResult × Option Model)
    (fmB : Formula → Formula → Nat → CheckSatResult × Option Model)
    (current formula : Formula) : Option (Option Model) :=
  let r1 := (fmO current formula).1
  match (fmO current formula).2 with
  | some _ =>
      (match minimizeModel fmB current formula with
       | some m => some (some (set_label m "-"))
       | none => none)
  | none =>
      let r2 := (fmO formula current).1
      match (fmO formula current).2 with
      | some _ =>
          (match minimizeModel fmB formula current with
           | some m => some (some (set_label m "+"))
           | none => none)
      | none =>
          if r1 = CheckSatResult.unsat ∧ r2 = CheckSatResult.unsat then some none
          else none

/-- `find_model_or_equivalence_cvc4` in learn.py, with the subprocess call
abstracted: `solve a b` is `solve_with_cvc4` run on the solver state holding
`a ∧ ¬b` (plus the axioms), `none` marking an exception escaping that call. The
source labels the first check's model `'-'` and the second check's model `'+'`,
returns `None` (here `some none`) when both checks are unsat, and otherwise
raises `RuntimeError("CVC4 did not produce equivalence or model")`. -/
def find_model_or_equivalence_cvc4
    (solve : Formula → Formula → Option (CheckSatResult × Option Model))
    (current formula : Formula) : Option (Option Model) :=
  match solve current formula with
  | none => none
  | some (r1, m1) =>
      match m1 with
      | some m => some (some (set_label m "-"))
      | none =>
          match solve formula current with
          | none => none
          | some (r2, m2) =>
              match m2 with
              | some m => some (some (set_label m "+"))
              | none =>
                  if r1 = CheckSatResult.unsat ∧ r2 = CheckSatResult.unsat then some none
                  else none

/-- Outcome of one `subprocess.run(['cvc4', ...])` call in cvc4.py: either the
`subprocess.TimeoutExpired` path or a completed process with its return code and
the lines of its standard output. -/
inductive SubprocessResult where
  | timedOut
  | completed (returncode : Int) (stdoutLines : List String)

/-- `solve_with_cvc4` in cvc4.py, the part after the subprocess call (the
serialisation `cvc4_preprocess(s.to_smt2())` feeds the subprocess and is part of
the abstracted `res`). `parseModel` abstracts `_parse_model`, with `none` for an
exception raised while parsing. The overall `none` is an uncaught exception: the
`assert False, "got weird: ..."` on a malformed first line, the `IndexError` on
empty output, or a parsing failure. Timeouts and non-zero return codes yield
`(z3.unknown, None)`. -/
def solve_with_cvc4 (parseModel : Signature → List String → Option Model)
    (sig : Signature) (res : SubprocessResult) :
    Option (CheckSatResult × Option Model) :=
  match res with
  | .timedOut => some (.unknown, none)
  | .completed rc lines =>
      if rc = 0 then
        match lines with
        | [] => none
        | first :: rest =>
            if first = "unsat" then some (.unsat, none)
            else if first = "unknown" then some (.unknown, none)
            else if first = "sat" then
              match parseModel sig rest with
              | some m => some (.sat, some m)
              | none => none
            else none
      else some (.unknown, none)

/-- The result record of a run (class `LearningResult` in learn.py). The three
timer objects are run bookkeeping and are not modelled; `models` is the ordered
list of collected counterexamples. -/
structure LearningResult where
  success : Bool
  current : Formula
  models : List Model
  reason : String
deriving Repr

/-- `r.label.startswith("+")` specialised to the one-character prefix the source
tests: true exactly when the label's first character is `'+'`. -/
def labelStartsWithPlus (s : String) : Bool :=
  match s.data with
  | [] => false
  | c :: _ => c = '+'

/-- Outcome of one oracle query in the `learn` loop: the equivalence report
(`r is None`), a counterexample model, a `TimeoutException` raised by a timer,
or a `RuntimeError` escaping the solver bridge. -/
inductive OracleResult where
  | equivalent
  | counterexample (m : Model)
  | timedOut
  | runtimeError (msg : String)

/-- Outcome of one `separator.separate(...)` call: a candidate formula, `None`
(no candidate under the current structural limits), or a `TimeoutException`. -/
inductive SepResult where
  | found (f : Formula)
  | noCandidate
  | timedOut

/-- The `while True` loop of `learn` in learn.py, with the oracle
(`find_model_or_equivalence[_cvc4]` plus the timer's `check_time`) abstracted as
`oracle` and the separator collaborator abstracted as `sep`, which receives the
accumulated positive and negative constraint identifier lists (`add_model`
identifiers are modelled as registration indices). `fuel` bounds the number of
iterations; `none` means the loop was still running after `fuel` rounds. The
`TimeoutException` handler sets reason `"timeout"`, the `RuntimeError` handler
sets the error's message, a `None` separator result sets reason
`"couldn't separate models under given restrictions"` and breaks, and the
equivalence report returns success. -/
def learnLoop (oracle : Formula → OracleResult) (sep : List Nat → List Nat → SepResult) :
    Nat → Formula → List Model → List Nat → List Nat → Option LearningResult
  | 0, _, _, _, _ => none
  | fuel + 1, current, models, ps, ns =>
      match oracle current with
      | .timedOut => some ⟨false, current, models, "timeout"⟩
      | .runtimeError msg => some ⟨false, current, models, msg⟩
      | .equivalent => some ⟨true, current, models, ""⟩
      | .counterexample r =>
          let ident := models.length
          let models2 := models ++ [r]
          let ps2 := if labelStartsWithPlus r.label then ps ++ [ident] else ps
          let ns2 := if labelStartsWithPlus r.label then ns else ns ++ [ident]
          match sep ps2 ns2 with
          | .timedOut => some ⟨false, current, models2, "timeout"⟩
          | .noCandidate =>
              some ⟨false, current, models2, "couldn't separate models under given restrictions"⟩
          | .found c => learnLoop oracle sep fuel c models2 ps2 ns2

/-- `learn` in learn.py: run the loop from the initial hypothesis `Or([])` with
empty model and constraint lists. -/
def learn (oracle : Formula → OracleResult) (sep : List Nat → List Nat → SepResult)
    (fuel : Nat) : Option LearningResult :=
  learnLoop oracle sep fuel (.Or []) [] [] []

/-- The `mapping[label]` lists built by `separate` in learn.py: the `add_model`
identifiers (registration indices) of the models carrying a given label, in
registration order. -/
def labelIdents (models : List Model) (label : String) : List Nat :=
  ((models.enum).filter (fun p => p.2.label = label)).map (fun p => p.1)

/-- The implication-constraint pairs `[(x, y) for a, b in f.constraint_imp
for x in mapping[a] for y in mapping[b]]`. -/
def impPairs (models : List Model) (cimp : List (String × String)) : List (Nat × Nat) :=
  cimp.flatMap (fun ab =>
    (labelIdents models ab.1).flatMap (fun x =>
      (labelIdents models ab.2).map (fun y => (x, y))))

/-- Batch mode (`separate` in learn.py): register every model up front, run one
separator search over the label-derived constraint lists, and report success with
the returned formula, failure with reason
`"couldn't separate models under given restrictions"` on a `None` result, or
reason `"timeout"` on a `TimeoutException`. -/
def separateRun (sep : List Nat → List Nat → List (Nat × Nat) → SepResult)
    (models : List Model) (cpos cneg : List String) (cimp : List (String × String)) :
    LearningResult :=
  match sep (cpos.flatMap (labelIdents models)) (cneg.flatMap (labelIdents models))
      (impPairs models cimp) with
  | .timedOut => ⟨false, .Or [], models, "timeout"⟩
  | .noCandidate => ⟨false, .Or [], models, "couldn't separate models under given restrictions"⟩
  | .found c => ⟨true, c, models, ""⟩

/-- Well-sorted terms over a signature in a context `Γ` of quantifier-bound
variables (name → sort): a bound variable has its context sort, an unbound
variable must be a declared constant, and a function application must match a
declared function's argument sorts. This is the reading of "a Formula over the
Signature" in the specification. -/
inductive TermHasSort (sig : Signature) : List (String × String) → Term → String → Prop where
  | varBound : ∀ Γ v s, alookup Γ v = some s → TermHasSort sig Γ (.Var v) s
  | varConst : ∀ Γ v s, alookup Γ v = none → alookup sig.constants v = some s →
      TermHasSort sig Γ (.Var v) s
  | func : ∀ Γ f args argSorts ret,
      alookup sig.functions f = some (argSorts, ret) →
      args.length = argSorts.length →
      (∀ p ∈ List.zip args argSorts, TermHasSort sig Γ p.1 p.2) →
      TermHasSort sig Γ (.Func f args) ret

/-- Well-sorted formulas over a signature in a context of quantifier-bound
variables. At the empty context this captures "a Formula over the Signature with
no free variables": every variable occurrence is either quantifier-bound or a
declared constant. -/
inductive FormulaWF (sig : Signature) : List (String × String) → Formula → Prop where
  | and : ∀ Γ cs, (∀ c ∈ cs, FormulaWF sig Γ c) → FormulaWF sig Γ (.And cs)
  | or : ∀ Γ cs, (∀ c ∈ cs, FormulaWF sig Γ c) → FormulaWF sig Γ (.Or cs)
  | not : ∀ Γ g, FormulaWF sig Γ g → FormulaWF sig Γ (.Not g)
  | equal : ∀ Γ t1 t2 s1 s2, TermHasSort sig Γ t1 s1 → TermHasSort sig Γ t2 s2 →
      FormulaWF sig Γ (.Equal t1 t2)
  | rel : ∀ Γ r args argSorts,
      alookup sig.relations r = some argSorts →
      args.length = argSorts.length →
      (∀ p ∈ List.zip args argSorts, TermHasSort sig Γ p.1 p.2) →
      FormulaWF sig Γ (.Relation r args)
  | fa : ∀ Γ v s g, FormulaWF sig ((v, s) :: Γ) g → FormulaWF sig Γ (.Forall v s g)
  | ex : ∀ Γ v s g, FormulaWF sig ((v, s) :: Γ) g → FormulaWF sig Γ (.Exists v s g)

/-- The runtime assumption dict realises the static context: every context
variable is assigned an element of its sort's universe, and nothing else is
assigned. -/
def envConforms (m : Model) (Γ : List (String × String)) (A : List (String × Nat)) : Prop :=
  (∀ v s, alookup Γ v = some s → ∃ e, alookup A v = some e ∧ e ∈ elemsOfSort m s) ∧
  (∀ v, alookup Γ v = none → alookup A v = none)

/-- Sort-correctness of a model's interpretations, which
`model_is_complete_wrt_sig` does not check: each declared constant denotes an
element of its declared sort's universe, and each declared function's dict
returns elements of its declared result sort's universe. -/
def modelSortCorrect (m : Model) (sig : Signature) : Prop :=
  (∀ c s e, alookup sig.constants c = some s → alookup m.constants c = some e →
      e ∈ elemsOfSort m s) ∧
  (∀ f argSorts ret tbl t r, alookup sig.functions f = some (argSorts, ret) →
      alookup m.functions f = some tbl → alookup tbl t = some r →
      r ∈ elemsOfSort m ret)

/-- Fixture: a one-sort signature with a constant, a relation and a function. -/
def sig4 : Signature :=
  { sorts := ["S"], sort_names := ["S"], sort_indices := [("S", 0)],
    relations := [("R", ["S"])], constants := [("c0", "S")],
    functions := [("g", (["S"], "S"))] }

/-- Fixture: a complete, sort-correct one-element model of `sig4`. -/
def m4 : Model :=
  { label := "", names := ["e0"], elems := [("e0", 0)], sorts := ["S"],
    elems_of_sort := [("S", [0])], elems_of_sort_index := [[0]],
    constants := [("c0", 0)], relations := [("R", [])],
    functions := [("g", [([0], 0)])], sig := sig4 }

/-- Fixture: a two-sort signature whose single function maps sort A to sort A. -/
def sig2 : Signature :=
  { sorts := ["A", "B"], sort_names := ["A", "B"],
    sort_indices := [("A", 0), ("B", 1)], relations := [], constants := [],
    functions := [("f", (["A"], "A"))] }

/-- Fixture: a model of `sig2` that `model_is_complete_wrt_sig` accepts although
its function value escapes the declared result sort: `f` maps the sort-A element
`0` to the sort-B element `1`. -/
def m2 : Model :=
  { label := "", names := ["a0", "b0"], elems := [("a0", 0), ("b0", 1)],
    sorts := ["A", "B"], elems_of_sort := [("A", [0]), ("B", [1])],
    elems_of_sort_index := [[0], [1]], constants := [], relations := [],
    functions := [("f", [([0], 1)])], sig := sig2 }

/-- Fixture: the sentence `∀ x : A. f(f(x)) = x`, well-sorted over `sig2` and
with no free variables. -/
def phi2 : Formula :=
  .Forall "x" "A" (.Equal (.Func "f" [.Func "f" [.Var "x"]]) (.Var "x"))

/-- Fixture: the empty signature. -/
def sigE : Signature :=
  { sorts := [], sort_names := [], sort_indices := [], relations := [],
    constants := [], functions := [] }

/-- Fixture: an environment over the empty signature with nothing bound. -/
def envE : Environment := { sig := sigE, bound := [], stack := [] }

/-- Fixture oracle: the unbounded equivalence query reports sat with model `m4`
on every call. -/
def fmO1 : Formula → Formula → CheckSatResult × Option Model :=
  fun _ _ => (.sat, some m4)

/-- Fixture oracle: every bounded minimization round reports sat with model `m4`. -/
def fmB1 : Formula → Formula → Nat → CheckSatResult × Option Model :=
  fun _ _ _ => (.sat, some m4)

/-- Fixture oracle: the query is sat (with model `m4`) exactly when its first
formula is an `Or`, so with hypothesis `And []` and target `Or []` only the
second direction produces a model. -/
def fmO2 : Formula → Formula → CheckSatResult × Option Model :=
  fun a _ =>
    match a with
    | .Or _ => (.sat, some m4)
    | _ => (.unknown, none)

/-- Fixture oracle: every query is unsat. -/
def fmO3 : Formula → Formula → CheckSatResult × Option Model :=
  fun _ _ => (.unsat, none)

/-- Fixture cvc4-side oracle: every call reports sat with model `m4`. -/
def solveA : Formula → Formula → Option (CheckSatResult × Option Model) :=
  fun _ _ => some (.sat, some m4)

/-- Fixture cvc4-side oracle: sat with model `m4` exactly when the first formula
is an `Or`, unknown without a model otherwise. -/
def solveB : Formula → Formula → Option (CheckSatResult × Option Model) :=
  fun a _ =>
    match a with
    | .Or _ => some (.sat, some m4)
    | _ => some (.unknown, none)

/-- Fixture cvc4-side oracle: every call is unsat. -/
def solveC : Formula → Formula → Option (CheckSatResult × Option Model) :=
  fun _ _ => some (.unsat, none)

/-- Fixture model parser that never succeeds (its behaviour is irrelevant to the
branches exercised below, which never reach a well-formed "sat" output). -/
def parseNone : Signature → List String → Option Model := fun _ _ => none

/-- Fixture oracle for the learn loop: every query returns the counterexample `m4`. -/
def oracleCex : Formula → OracleResult := fun _ => .counterexample m4

/-- Fixture oracle for the learn loop: every query times out. -/
def oracleTimeout : Formula → OracleResult := fun _ => .timedOut

/-- Fixture separator: no candidate exists under any constraints. -/
def sepNoCandidate : List Nat → List Nat → SepResult := fun _ _ => .noCandidate

/-- Fixture batch separator: no candidate exists under any constraints. -/
def sepNoCandidateB : List Nat → List Nat → List (Nat × Nat) → SepResult :=
  fun _ _ _ => .noCandidate

theorem alookup_filter_bne {α : Type} (l : List (String × α)) (v : String) :
    alookup (l.filter (fun p => p.1 != v)) v = none := by
  induction l with
  | nil => rfl
  | cons p rest ih =>
      by_cases h : p.1 = v
      · simp [List.filter_cons, h, ih]
      · simp [List.filter_cons, h, alookup, ih]

/-- C8: the empty conjunction evaluates to true and the empty disjunction to
false, for every Model and assumption map. -/
theorem c8_empty_and_or : ∀ (m : Model) (A : List (String × Nat)),
    check (.And []) m A = .ok true ∧ check (.Or []) m A = .ok false := by
  intro m A
  exact ⟨by simp [check, checkAnd], by simp [check, checkOr]⟩

/-- C10: a sort with no elements in the model — including a sort name never
added to the `elems_of_sort` defaultdict — makes every `Forall` over it true and
every `Exists` over it false, with no error. -/
theorem c10_empty_sort : ∀ (m : Model) (v s : String) (f : Formula)
    (A : List (String × Nat)), elemsOfSort m s = [] →
    check (.Forall v s f) m A = .ok true ∧ check (.Exists v s f) m A = .ok false := by
  intro m v s f A h
  exact ⟨by simp [check, h, checkForallLoop], by simp [check, h, checkExistsLoop]⟩

/-- Witness for C10 at a concrete model (`m4` has no sort `"T"`). -/
theorem c10_witness :
    check (.Forall "x" "T" (.And [])) m4 [] = .ok true ∧
    check (.Exists "x" "T" (.And [])) m4 [] = .ok false :=
  c10_empty_sort m4 "x" "T" (.And []) [] (by decide)

theorem quantLoop_duality (g : Formula) (m : Model) (A : List (String × Nat))
    (v : String) (es : List Nat) :
    checkForallLoop g m A v es
      = Except.map (fun b => !b) (checkExistsLoop (.Not g) m A v es) := by
  induction es with
  | nil => simp [checkForallLoop, checkExistsLoop, Except.map]
  | cons e rest ih =>
      cases hg : check g m ((v, e) :: A) with
      | error err =>
          simp [checkForallLoop, checkExistsLoop, check, hg, Except.map]
      | ok b =>
          cases b <;>
            simp [checkForallLoop, checkExistsLoop, check, hg, Except.map, ih]

/-- C7: quantifier duality — evaluating `Forall(v, s, f)` gives exactly the
boolean negation of evaluating `Exists(v, s, Not(f))`, for every formula, model,
variable, sort and assumption map (and identical outcomes on the error paths). -/
theorem c7_quantifier_duality : ∀ (f : Formula) (m : Model) (v s : String)
    (A : List (String × Nat)),
    check (.Forall v s f) m A
      = Except.map (fun b => !b) (check (.Exists v s (.Not f)) m A) := by
  intro f m v s A
  simp only [check]
  exact quantLoop_duality f m A v (elemsOfSort m s)

/-- C9: a quantifier whose bound variable is a key of the substitution mapping
suppresses exactly that one entry inside its body — the recursion proceeds with
the mapping minus that key, for both `Forall` and `Exists`. -/
theorem c9_rename_binder_suppression : ∀ (v s : String) (f : Formula)
    (mapping : List (String × String)), (alookup mapping v).isSome →
    rename_free_vars (.Forall v s f) mapping
      = .Forall v s (rename_free_vars f (mapping.filter (fun p => p.1 != v))) ∧
    rename_free_vars (.Exists v s f) mapping
      = .Exists v s (rename_free_vars f (mapping.filter (fun p => p.1 != v))) := by
  intro v s f mapping h
  constructor <;> simp [rename_free_vars, h]

/-- Witness for C9 at a concrete quantified formula and two-entry mapping. -/
theorem c9_witness :
    rename_free_vars (.Forall "x" "A" (.Relation "R" [.Var "x", .Var "y"]))
        [("x", "z"), ("y", "w")]
      = .Forall "x" "A" (rename_free_vars (.Relation "R" [.Var "x", .Var "y"])
          ([("x", "z"), ("y", "w")].filter (fun p => p.1 != "x"))) ∧
    rename_free_vars (.Exists "x" "A" (.Relation "R" [.Var "x", .Var "y"]))
        [("x", "z"), ("y", "w")]
      = .Exists "x" "A" (rename_free_vars (.Relation "R" [.Var "x", .Var "y"])
          ([("x", "z"), ("y", "w")].filter (fun p => p.1 != "x"))) :=
  c9_rename_binder_suppression "x" "A" (.Relation "R" [.Var "x", .Var "y"])
    [("x", "z"), ("y", "w")] (by decide)

/-- C3 counterexample: over the empty signature, bind x twice and pop once; the
remaining lookup is `None`, not the first sort `"A"` — the first binding was
overwritten, not saved. -/
theorem c3_counterexample :
    (((envE.bind "x" "A").bind "x" "B").pop).lookup_var "x" ≠ some "A" ∧
    (((envE.bind "x" "A").bind "x" "B").pop).lookup_var "x" = none := by decide

/-- C3 as amended: after `bind(v, s1); bind(v, s2); pop()`, `lookup_var(v)`
falls through to the signature's constant table (so `None` unless `v` is a
declared constant) — re-binding overwrites the previous binding and pop deletes
the name from the binding dict entirely. -/
theorem c3_amended : ∀ (e : Environment) (v s1 s2 : String),
    (((e.bind v s1).bind v s2).pop).lookup_var v = alookup e.sig.constants v := by
  intro e v s1 s2
  simp [Environment.bind, Environment.pop, Environment.lookup_var, alookup_filter_bne]

/-- C4 counterexample: on the concrete model `m4`, `add_relation` and
`add_function` succeed but their Python return value is `None` — not the boolean
the claim asserts for all four add operations. -/
theorem c4_counterexample :
    (Model.add_relation m4 "R" ["e0"]).map Prod.snd = some none ∧
    (Model.add_relation m4 "R" ["e0"]).map Prod.snd ≠ some (some true) ∧
    (Model.add_relation m4 "R" ["e0"]).map Prod.snd ≠ some (some false) ∧
    (Model.add_function m4 "g" ["e0"] "e0").map Prod.snd = some none := by decide

/-- C4 as amended: `add_elem` and `add_constant` return a boolean that is true
exactly for a new entry, and a duplicate element or constant insertion is a
no-op that leaves the Model unchanged and returns false rather than raising;
`add_relation` and `add_function` return `None`, not a boolean. -/
theorem c4_amended :
    (∀ (m : Model) (name sort : String), (alookup m.elems name).isSome →
        Model.add_elem m name sort = some (m, false)) ∧
    (∀ (m : Model) (name sort : String), alookup m.elems name = none →
        (Model.add_elem m name sort).isSome →
        (Model.add_elem m name sort).map Prod.snd = some true) ∧
    (∀ (m : Model) (name elem : String), (alookup m.constants name).isSome →
        Model.add_constant m name elem = some (m, false)) ∧
    (∀ (m : Model) (name elem : String), alookup m.constants name = none →
        (Model.add_constant m name elem).isSome →
        (Model.add_constant m name elem).map Prod.snd = some true) ∧
    (∀ (m : Model) (rel : String) (args : List String),
        (Model.add_relation m rel args).isSome →
        (Model.add_relation m rel args).map Prod.snd = some none) ∧
    (∀ (m : Model) (func : String) (args : List String) (result : String),
        (Model.add_function m func args result).isSome →
        (Model.add_function m func args result).map Prod.snd = some none) := by
  refine ⟨?_, ?_, ?_, ?_, ?_, ?_⟩
  · intro m name sort h
    simp [Model.add_elem, h]
  · intro m name sort h hsome
    simp only [Model.add_elem, h, Option.isSome_none, Bool.false_eq_true, if_false] at hsome ⊢
    cases hidx : alookup m.sig.sort_indices sort with
    | none => simp [hidx] at hsome
    | some i =>
        by_cases hlt : i < m.elems_of_sort_index.length
        · simp [hidx, hlt]
        · simp [hidx, hlt] at hsome
  · intro m name elem h
    simp [Model.add_constant, h]
  · intro m name elem h hsome
    simp only [Model.add_constant, h, Option.isSome_none, Bool.false_eq_true, if_false]
      at hsome ⊢
    cases he : alookup m.elems elem with
    | none => simp [he] at hsome
    | some e => simp [he]
  · intro m rel args hsome
    simp only [Model.add_relation] at hsome ⊢
    cases hrel : alookup m.relations rel with
    | none => simp [hrel] at hsome
    | some tuples =>
        cases ht : elemsOf m args with
        | none => simp [hrel, ht] at hsome
        | some t => simp [hrel, ht]
  · intro m func args result hsome
    simp only [Model.add_function] at hsome ⊢
    cases hr : alookup m.elems result with
    | none => simp [hr] at hsome
    | some r =>
        cases hf : alookup m.functions func with
        | none => simp [hr, hf] at hsome
        | some tbl =>
            cases ht : elemsOf m args with
            | none => simp [hr, hf, ht] at hsome
            | some t => simp [hr, hf, ht]

/-- Witness for C4 at concrete inserts into `m4`: duplicate element and constant
are reported as non-new no-ops, fresh ones as new, and the relation/function
adds return `None`. -/
theorem c4_witness :
    Model.add_elem m4 "e0" "S" = some (m4, false) ∧
    (Model.add_elem m4 "e1" "S").map Prod.snd = some true ∧
    Model.add_constant m4 "c0" "e0" = some (m4, false) ∧
    (Model.add_constant m4 "c1" "e0").map Prod.snd = some true ∧
    (Model.add_relation m4 "R" ["e0", "e0"]).map Prod.snd = some none ∧
    (Model.add_function m4 "g" ["e0"] "e0").map Prod.snd = some none :=
  ⟨c4_amended.1 m4 "e0" "S" (by decide),
   c4_amended.2.1 m4 "e1" "S" (by decide) (by decide),
   c4_amended.2.2.1 m4 "c0" "e0" (by decide),
   c4_amended.2.2.2.1 m4 "c1" "e0" (by decide) (by decide),
   c4_amended.2.2.2.2.1 m4 "R" ["e0", "e0"] (by decide),
   c4_amended.2.2.2.2.2 m4 "g" ["e0"] "e0" (by decide)⟩

/-- C5 counterexample: a zero-exit subprocess whose first output line is not one
of `unsat`/`unknown`/`sat` hits `assert False, "got weird: ..."` — an uncaught
exception (`none`), not the `(unknown, None)` result the claim asserts. -/
theorem c5_counterexample :
    solve_with_cvc4 parseNone sigE (.completed 0 ["garbage"]) = none ∧
    solve_with_cvc4 parseNone sigE (.completed 0 ["garbage"])
      ≠ some (CheckSatResult.unknown, none) := by decide

/-- C5 as amended: `solve_with_cvc4` returns `(unknown, None)` without crashing
when the subprocess times out or exits non-zero; a malformed first output line
(or empty output) from a zero-exit subprocess instead raises an uncaught
`AssertionError` (`IndexError` for empty output). -/
theorem c5_amended : ∀ (parse : Signature → List String → Option Model)
    (sig : Signature) (res : SubprocessResult),
    (res = .timedOut → solve_with_cvc4 parse sig res = some (.unknown, none)) ∧
    (∀ rc lines, res = .completed rc lines → rc ≠ 0 →
        solve_with_cvc4 parse sig res = some (.unknown, none)) ∧
    (∀ rc first rest, res = .completed rc (first :: rest) → rc = 0 →
        first ≠ "unsat" → first ≠ "unknown" → first ≠ "sat" →
        solve_with_cvc4 parse sig res = none) ∧
    (∀ rc, res = .completed rc [] → rc = 0 → solve_with_cvc4 parse sig res = none) := by
  intro parse sig res
  refine ⟨?_, ?_, ?_, ?_⟩
  · intro h; subst h; rfl
  · intro rc lines h hrc; subst h; simp [solve_with_cvc4, hrc]
  · intro rc first rest h hrc h1 h2 h3
    subst h; subst hrc
    simp [solve_with_cvc4, h1, h2, h3]
  · intro rc h hrc; subst h; subst hrc; simp [solve_with_cvc4]

/-- Witness for C5 at concrete subprocess outcomes: a timeout, a non-zero exit,
a malformed first line with exit 0, and empty output with exit 0. -/
theorem c5_witness :
    solve_with_cvc4 parseNone sigE .timedOut = some (.unknown, none) ∧
    solve_with_cvc4 parseNone sigE (.completed 1 ["sat"]) = some (.unknown, none) ∧
    solve_with_cvc4 parseNone sigE (.completed 0 ["strange"]) = none ∧
    solve_with_cvc4 parseNone sigE (.completed 0 []) = none :=
  ⟨(c5_amended parseNone sigE .timedOut).1 rfl,
   (c5_amended parseNone sigE (.completed 1 ["sat"])).2.1 1 ["sat"] rfl (by decide),
   (c5_amended parseNone sigE (.completed 0 ["strange"])).2.2.1 0 "strange" [] rfl rfl
     (by decide) (by decide) (by decide),
   (c5_amended parseNone sigE (.completed 0 [])).2.2.2 0 rfl rfl⟩

/-- C6 counterexample: a run whose separator reports no candidate terminates
with success false, but the recorded failure reason is the full string
`"couldn't separate models under given restrictions"`, not the claim's literal
`"couldn't separate"`. -/
theorem c6_counterexample :
    (learnLoop oracleCex sepNoCandidate 1 (.Or []) [] [] []).map
        (fun lr => (lr.success, lr.reason))
      = some (false, "couldn't separate models under given restrictions") ∧
    ("couldn't separate models under given restrictions" : String)
      ≠ "couldn't separate" := by decide

/-- C6 as amended: whenever the separator's search returns no candidate under
the current structural limits, both the interactive learn loop and the batch
mode terminate with success false and failure reason
`"couldn't separate models under given restrictions"`, a reason distinct from
the `"timeout"` reason set when a bounded timer expires. -/
theorem c6_amended :
    (∀ (oracle : Formula → OracleResult) (sep : List Nat → List Nat → SepResult)
        (fuel : Nat) (current : Formula) (models : List Model) (ps ns : List Nat)
        (r : Model),
      oracle current = .counterexample r →
      sep (if labelStartsWithPlus r.label then ps ++ [models.length] else ps)
          (if labelStartsWithPlus r.label then ns else ns ++ [models.length])
        = .noCandidate →
      learnLoop oracle sep (fuel + 1) current models ps ns
        = some ⟨false, current, models ++ [r],
                "couldn't separate models under given restrictions"⟩) ∧
    (∀ (sep : List Nat → List Nat → List (Nat × Nat) → SepResult)
        (models : List Model) (cpos cneg : List String)
        (cimp : List (String × String)),
      sep (cpos.flatMap (labelIdents models)) (cneg.flatMap (labelIdents models))
          (impPairs models cimp) = .noCandidate →
      separateRun sep models cpos cneg cimp
        = ⟨false, .Or [], models, "couldn't separate models under given restrictions"⟩) ∧
    (∀ (oracle : Formula → OracleResult) (sep : List Nat → List Nat → SepResult)
        (fuel : Nat) (current : Formula) (models : List Model) (ps ns : List Nat),
      oracle current = .timedOut →
      learnLoop oracle sep (fuel + 1) current models ps ns
        = some ⟨false, current, models, "timeout"⟩) ∧
    ("couldn't separate models under given restrictions" : String) ≠ "timeout" := by
  refine ⟨?_, ?_, ?_, by decide⟩
  · intro oracle sep fuel current models ps ns r h1 h2
    simp [learnLoop, h1, h2]
  · intro sep models cpos cneg cimp h
    simp [separateRun, h]
  · intro oracle sep fuel current models ps ns h
    simp [learnLoop, h]

/-- Witness for C6 at concrete oracles and separators: the no-candidate outcome
in both modes, and the timeout outcome for contrast. -/
theorem c6_witness :
    learnLoop oracleCex sepNoCandidate 1 (.Or []) [] [] []
      = some ⟨false, .Or [], [m4],
              "couldn't separate models under given restrictions"⟩ ∧
    separateRun sepNoCandidateB [m4] ["+"] ["-"] []
      = ⟨false, .Or [], [m4], "couldn't separate models under given restrictions"⟩ ∧
    learnLoop oracleTimeout sepNoCandidate 1 (.Or []) [] [] []
      = some ⟨false, .Or [], [], "timeout"⟩ :=
  ⟨c6_amended.1 oracleCex sepNoCandidate 0 (.Or []) [] [] [] m4 rfl rfl,
   c6_amended.2.1 sepNoCandidateB [m4] ["+"] ["-"] [] rfl,
   c6_amended.2.2.1 oracleTimeout sepNoCandidate 0 (.Or []) [] [] [] rfl⟩

/-- C1 counterexample: with oracles that report the very first check satisfiable
with witness `m4`, both halves return that counterexample labeled `"-"` — not
the `"+"` the claim asserts for a satisfiable first check. -/
theorem c1_counterexample :
    (find_model_or_equivalence fmO1 fmB1 (.And []) (.Or [])).map
        (Option.map Model.label) = some (some "-") ∧
    (find_model_or_equivalence_cvc4 solveA (.And []) (.Or [])).map
        (Option.map Model.label) = some (some "-") ∧
    ("-" : String) ≠ "+" := by decide

/-- C1 as amended: per equivalence query on hypothesis `a` and target `b`, both
halves first check `a ∧ ¬b` and, if satisfiable, return the counterexample
labeled `"-"` (a negative example: the hypothesis is too weak); otherwise they
check `b ∧ ¬a` and, if satisfiable, return the counterexample labeled `"+"` (a
positive example: the hypothesis is too strong); if both checks are unsatisfiable
they report the formulas equivalent by returning no model. -/
theorem c1_amended :
    (∀ (fmO : Formula → Formula → CheckSatResult × Option Model)
        (fmB : Formula → Formula → Nat → CheckSatResult × Option Model)
        (cur phi : Formula) (mm : Model),
      ((fmO cur phi).2).isSome → minimizeModel fmB cur phi = some mm →
      find_model_or_equivalence fmO fmB cur phi = some (some (set_label mm "-"))) ∧
    (∀ (fmO : Formula → Formula → CheckSatResult × Option Model)
        (fmB : Formula → Formula → Nat → CheckSatResult × Option Model)
        (cur phi : Formula) (mm : Model),
      (fmO cur phi).2 = none → ((fmO phi cur).2).isSome →
      minimizeModel fmB phi cur = some mm →
      find_model_or_equivalence fmO fmB cur phi = some (some (set_label mm "+"))) ∧
    (∀ (fmO : Formula → Formula → CheckSatResult × Option Model)
        (fmB : Formula → Formula → Nat → CheckSatResult × Option Model)
        (cur phi : Formula),
      fmO cur phi = (.unsat, none) → fmO phi cur = (.unsat, none) →
      find_model_or_equivalence fmO fmB cur phi = some none) ∧
    (∀ (solve : Formula → Formula → Option (CheckSatResult × Option Model))
        (cur phi : Formula) (r1 : CheckSatResult) (mm : Model),
      solve cur phi = some (r1, some mm) →
      find_model_or_equivalence_cvc4 solve cur phi = some (some (set_label mm "-"))) ∧
    (∀ (solve : Formula → Formula → Option (CheckSatResult × Option Model))
        (cur phi : Formula) (r1 r2 : CheckSatResult) (mm : Model),
      solve cur phi = some (r1, none) → solve phi cur = some (r2, some mm) →
      find_model_or_equivalence_cvc4 solve cur phi = some (some (set_label mm "+"))) ∧
    (∀ (solve : Formula → Formula → Option (CheckSatResult × Option Model))
        (cur phi : Formula),
      solve cur phi = some (.unsat, none) → solve phi cur = some (.unsat, none) →
      find_model_or_equivalence_cvc4 solve cur phi = some none) := by
  refine ⟨?_, ?_, ?_, ?_, ?_, ?_⟩
  · intro fmO fmB cur phi mm h1 h2
    obtain ⟨x, hx⟩ := Option.isSome_iff_exists.mp h1
    simp [find_model_or_equivalence, hx, h2]
  · intro fmO fmB cur phi mm h1 h2 h3
    obtain ⟨x, hx⟩ := Option.isSome_iff_exists.mp h2
    simp [find_model_or_equivalence, h1, hx, h3]
  · intro fmO fmB cur phi h1 h2
    simp [find_model_or_equivalence, h1, h2]
  · intro solve cur phi r1 mm h1
    simp [find_model_or_equivalence_cvc4, h1]
  · intro solve cur phi r1 r2 mm h1 h2
    simp [find_model_or_equivalence_cvc4, h1, h2]
  · intro solve cur phi h1 h2
    simp [find_model_or_equivalence_cvc4, h1, h2]

/-- Witness for C1 at concrete oracles: a first-check counterexample gets label
`"-"`, a second-check counterexample gets label `"+"`, and two unsat checks
report equivalence, for both the embedded-solver and external-process halves. -/
theorem c1_witness :
    find_model_or_equivalence fmO1 fmB1 (.And []) (.Or [])
      = some (some (set_label m4 "-")) ∧
    find_model_or_equivalence fmO2 fmB1 (.And []) (.Or [])
      = some (some (set_label m4 "+")) ∧
    find_model_or_equivalence fmO3 fmB1 (.And []) (.Or []) = some none ∧
    find_model_or_equivalence_cvc4 solveA (.And []) (.Or [])
      = some (some (set_label m4 "-")) ∧
    find_model_or_equivalence_cvc4 solveB (.And []) (.Or [])
      = some (some (set_label m4 "+")) ∧
    find_model_or_equivalence_cvc4 solveC (.And []) (.Or []) = some none :=
  ⟨c1_amended.1 fmO1 fmB1 (.And []) (.Or []) m4 (by decide) (by decide),
   c1_amended.2.1 fmO2 fmB1 (.And []) (.Or []) m4 (by decide) (by decide) (by decide),
   c1_amended.2.2.1 fmO3 fmB1 (.And []) (.Or []) (by decide) (by decide),
   c1_amended.2.2.2.1 solveA (.And []) (.Or []) .sat m4 (by decide),
   c1_amended.2.2.2.2.1 solveB (.And []) (.Or []) .unknown .sat m4 (by decide) (by decide),
   c1_amended.2.2.2.2.2 solveC (.And []) (.Or []) (by decide) (by decide)⟩

theorem alookup_mem {κ α : Type} [DecidableEq κ] :
    ∀ {l : List (κ × α)} {k : κ} {w : α}, alookup l k = some w → (k, w) ∈ l := by
  intro l
  induction l with
  | nil => intro k w h; simp [alookup] at h
  | cons p rest ih =>
      intro k w h
      obtain ⟨a, b⟩ := p
      by_cases hk : a = k
      · subst hk
        simp [alookup] at h
        subst h
        exact List.mem_cons_self _ _
      · simp [alookup, hk] at h
        exact List.mem_cons_of_mem _ (ih h)

theorem complete_unpack {m : Model} {sig : Signature}
    (h : model_is_complete_wrt_sig m sig = true) :
    (∀ p ∈ sig.constants, (alookup m.constants p.1).isSome) ∧
    (∀ p ∈ sig.relations, (alookup m.relations p.1).isSome) ∧
    (∀ p ∈ sig.functions, ∃ tbl, alookup m.functions p.1 = some tbl ∧
        ∀ t ∈ listProd (p.2.1.map (elemsOfSort m)), (alookup tbl t).isSome) := by
  unfold model_is_complete_wrt_sig at h
  simp only [Bool.and_eq_true, List.all_eq_true] at h
  obtain ⟨⟨⟨_, hconsts⟩, hrels⟩, hfuncs⟩ := h
  refine ⟨fun p hp => hconsts p hp, fun p hp => hrels p hp, ?_⟩
  intro p hp
  have hp2 := hfuncs p hp
  cases htbl : alookup m.functions p.1 with
  | none => rw [htbl] at hp2; simp at hp2
  | some tbl =>
      rw [htbl] at hp2
      simp only [List.all_eq_true] at hp2
      exact ⟨tbl, rfl, hp2⟩

theorem envConforms_extend {m : Model} {Γ : List (String × String)}
    {A : List (String × Nat)} (h : envConforms m Γ A) (v : String) {s : String}
    {e : Nat} (he : e ∈ elemsOfSort m s) :
    envConforms m ((v, s) :: Γ) ((v, e) :: A) := by
  constructor
  · intro w s2 hw
    by_cases hvw : v = w
    · subst hvw
      simp [alookup] at hw
      subst hw
      exact ⟨e, by simp [alookup], he⟩
    · simp only [alookup, if_neg hvw] at hw ⊢
      exact h.1 w s2 hw
  · intro w hw
    by_cases hvw : v = w
    · subst hvw; simp [alookup] at hw
    · simp only [alookup, if_neg hvw] at hw ⊢
      exact h.2 w hw

theorem resolve_terms_sound {m : Model} :
    ∀ {argSorts : List String} {args : List Term} {A : List (String × Nat)},
      (∀ p ∈ List.zip args argSorts,
          ∃ e, resolve_term p.1 m A = .ok e ∧ e ∈ elemsOfSort m p.2) →
      args.length = argSorts.length →
      ∃ es, resolve_terms args m A = .ok es ∧
        es ∈ listProd (argSorts.map (elemsOfSort m)) := by
  intro argSorts
  induction argSorts with
  | nil =>
      intro args A h hlen
      cases args with
      | nil => exact ⟨[], by simp [resolve_terms], by simp [listProd]⟩
      | cons a rest => simp at hlen
  | cons s ss ih =>
      intro args A h hlen
      cases args with
      | nil => simp at hlen
      | cons a rest =>
          obtain ⟨e, he, hes⟩ := h (a, s) (by simp)
          obtain ⟨es, hres, hmem⟩ := ih
            (fun p hp => h p (by rw [List.zip_cons_cons]; exact List.mem_cons_of_mem _ hp))
            (by simpa using hlen)
          refine ⟨e :: es, by simp [resolve_terms, he, hres], ?_⟩
          simp only [listProd, List.map]
          exact List.mem_flatMap.mpr ⟨e, hes, List.mem_map.mpr ⟨es, hmem, rfl⟩⟩

theorem resolve_term_sound {sig : Signature} {m : Model}
    (hc : model_is_complete_wrt_sig m sig = true) (hs : modelSortCorrect m sig) :
    ∀ {Γ : List (String × String)} {t : Term} {srt : String},
      TermHasSort sig Γ t srt → ∀ {A : List (String × Nat)}, envConforms m Γ A →
      ∃ e, resolve_term t m A = .ok e ∧ e ∈ elemsOfSort m srt := by
  intro Γ t srt h
  induction h with
  | varBound v s hv =>
      intro A hA
      obtain ⟨e, he, hes⟩ := hA.1 v s hv
      exact ⟨e, by simp [resolve_term, he], hes⟩
  | varConst v s hv hcst =>
      intro A hA
      have hnone : alookup A v = none := hA.2 v hv
      obtain ⟨e, he⟩ :=
        Option.isSome_iff_exists.mp ((complete_unpack hc).1 _ (alookup_mem hcst))
      exact ⟨e, by simp [resolve_term, hnone, he], hs.1 v s e hcst he⟩
  | func f args argSorts ret hf hlen hargs ih =>
      intro A hA
      obtain ⟨tbl, htbl, htot⟩ := (complete_unpack hc).2.2 _ (alookup_mem hf)
      obtain ⟨es, hres, hmem⟩ := resolve_terms_sound (fun p hp => ih p hp hA) hlen
      obtain ⟨r, hr⟩ := Option.isSome_iff_exists.mp (htot es hmem)
      exact ⟨r, by simp [resolve_term, htbl, hres, hr],
        hs.2 f argSorts ret tbl es r hf htbl hr⟩

theorem check_sound {sig : Signature} {m : Model}
    (hc : model_is_complete_wrt_sig m sig = true) (hs : modelSortCorrect m sig) :
    ∀ {Γ : List (String × String)} {f : Formula}, FormulaWF sig Γ f →
      ∀ {A : List (String × Nat)}, envConforms m Γ A →
      ∃ b, check f m A = .ok b := by
  intro Γ f h
  induction h with
  | and Γ2 cs hcs ih =>
      intro A hA
      have aux : ∀ ds : List Formula, (∀ c ∈ ds, c ∈ cs) →
          ∃ b, checkAnd ds m A = .ok b := by
        intro ds
        induction ds with
        | nil => exact fun _ => ⟨true, by simp [checkAnd]⟩
        | cons c rest ihr =>
            intro hsub
            obtain ⟨b, hb⟩ := ih c (hsub c (by simp)) hA
            cases b with
            | false => exact ⟨false, by simp [checkAnd, hb]⟩
            | true =>
                obtain ⟨b2, hb2⟩ := ihr (fun d hd => hsub d (by simp [hd]))
                exact ⟨b2, by simp [checkAnd, hb, hb2]⟩
      obtain ⟨b, hb⟩ := aux cs (fun c hcm => hcm)
      exact ⟨b, by simp [check, hb]⟩
  | or Γ2 cs hcs ih =>
      intro A hA
      have aux : ∀ ds : List Formula, (∀ c ∈ ds, c ∈ cs) →
          ∃ b, checkOr ds m A = .ok b := by
        intro ds
        induction ds with
        | nil => exact fun _ => ⟨false, by simp [checkOr]⟩
        | cons c rest ihr =>
            intro hsub
            obtain ⟨b, hb⟩ := ih c (hsub c (by simp)) hA
            cases b with
            | true => exact ⟨true, by simp [checkOr, hb]⟩
            | false =>
                obtain ⟨b2, hb2⟩ := ihr (fun d hd => hsub d (by simp [hd]))
                exact ⟨b2, by simp [checkOr, hb, hb2]⟩
      obtain ⟨b, hb⟩ := aux cs (fun c hcm => hcm)
      exact ⟨b, by simp [check, hb]⟩
  | not Γ2 g hg ih =>
      intro A hA
      obtain ⟨b, hb⟩ := ih hA
      exact ⟨!b, by simp [check, hb]⟩
  | equal Γ2 t1 t2 s1 s2 h1 h2 =>
      intro A hA
      obtain ⟨e1, he1, _⟩ := resolve_term_sound hc hs h1 hA
      obtain ⟨e2, he2, _⟩ := resolve_term_sound hc hs h2 hA
      exact ⟨e1 == e2, by simp [check, he1, he2]⟩
  | rel Γ2 r args argSorts hr hlen hargs =>
      intro A hA
      obtain ⟨tuples, htuples⟩ :=
        Option.isSome_iff_exists.mp ((complete_unpack hc).2.1 _ (alookup_mem hr))
      obtain ⟨es, hres, _⟩ := resolve_terms_sound
        (fun p hp => resolve_term_sound hc hs (hargs p hp) hA) hlen
      exact ⟨decide (es ∈ tuples), by simp [check, hres, htuples]⟩
  | fa Γ2 v s g hg ih =>
      intro A hA
      have aux : ∀ es : List Nat, (∀ e ∈ es, e ∈ elemsOfSort m s) →
          ∃ b, checkForallLoop g m A v es = .ok b := by
        intro es
        induction es with
        | nil => exact fun _ => ⟨true, by simp [checkForallLoop]⟩
        | cons e rest ihr =>
            intro hsub
            obtain ⟨b, hb⟩ := ih (envConforms_extend hA v (hsub e (by simp)))
            cases b with
            | false => exact ⟨false, by simp [checkForallLoop, hb]⟩
            | true =>
                obtain ⟨b2, hb2⟩ := ihr (fun d hd => hsub d (by simp [hd]))
                exact ⟨b2, by simp [checkForallLoop, hb, hb2]⟩
      obtain ⟨b, hb⟩ := aux (elemsOfSort m s) (fun e he => he)
      exact ⟨b, by simp [check, hb]⟩
  | ex Γ2 v s g hg ih =>
      intro A hA
      have aux : ∀ es : List Nat, (∀ e ∈ es, e ∈ elemsOfSort m s) →
          ∃ b, checkExistsLoop g m A v es = .ok b := by
        intro es
        induction es with
        | nil => exact fun _ => ⟨false, by simp [checkExistsLoop]⟩
        | cons e rest ihr =>
            intro hsub
            obtain ⟨b, hb⟩ := ih (envConforms_extend hA v (hsub e (by simp)))
            cases b with
            | true => exact ⟨true, by simp [checkExistsLoop, hb]⟩
            | false =>
                obtain ⟨b2, hb2⟩ := ihr (fun d hd => hsub d (by simp [hd]))
                exact ⟨b2, by simp [checkExistsLoop, hb, hb2]⟩
      obtain ⟨b, hb⟩ := aux (elemsOfSort m s) (fun e he => he)
      exact ⟨b, by simp [check, hb]⟩

/-- C2 counterexample: `m2` passes `model_is_complete_wrt_sig` against `sig2`,
and `phi2` (`∀ x : A. f(f(x)) = x`) is well-sorted over `sig2` with no free
variables, yet evaluation reaches the undefined-function-application branch of
`resolve_term`: the table of `f` covers sort A's universe but returns the
sort-B element `1`, on which the outer application's tuple lookup fails. -/
theorem c2_counterexample :
    model_is_complete_wrt_sig m2 sig2 = true ∧
    FormulaWF sig2 [] phi2 ∧
    check phi2 m2 [] = .error "undefined function application" := by
  have hx : TermHasSort sig2 [("x", "A")] (.Var "x") "A" :=
    .varBound _ _ _ (by decide)
  have hfx : TermHasSort sig2 [("x", "A")] (.Func "f" [.Var "x"]) "A" := by
    refine .func _ _ _ ["A"] _ (by decide) (by decide) ?_
    intro p hp
    simp only [List.zip_cons_cons, List.zip_nil_left, List.mem_singleton] at hp
    subst hp
    exact hx
  have hffx : TermHasSort sig2 [("x", "A")] (.Func "f" [.Func "f" [.Var "x"]]) "A" := by
    refine .func _ _ _ ["A"] _ (by decide) (by decide) ?_
    intro p hp
    simp only [List.zip_cons_cons, List.zip_nil_left, List.mem_singleton] at hp
    subst hp
    exact hfx
  refine ⟨by decide, .fa _ _ _ _ (.equal _ _ _ "A" "A" hffx hx), ?_⟩
  simp [phi2, check, checkForallLoop, resolve_term, resolve_terms, elemsOfSort,
    alookup, m2, sig2]

/-- C2 as amended: for every Model that is complete with respect to its
Signature and moreover sort-correct (constants denote elements of their declared
sorts and function tables return elements of their declared result sorts —
properties `model_is_complete_wrt_sig` itself does not check), and every Formula
well-sorted over that Signature with no free variables, `check(f, m, {})`
returns a boolean and the undefined-variable and undefined-function-application
error branches of `resolve_term` are never reached. -/
theorem c2_amended : ∀ (sig : Signature) (m : Model) (f : Formula),
    model_is_complete_wrt_sig m sig = true → modelSortCorrect m sig →
    FormulaWF sig [] f → ∃ b, check f m [] = .ok b := by
  intro sig m f hc hs hwf
  have hA : envConforms m [] [] :=
    ⟨fun v s h => by simp [alookup] at h, fun v _ => rfl⟩
  exact check_sound hc hs hwf hA

/-- Witness for C2 at the complete and sort-correct model `m4` of `sig4` and the
sentence `∀ x : S. R(g(x)) ∨ x = c0`. -/
theorem c2_witness :
    ∃ b, check (.Forall "x" "S"
      (.Or [.Relation "R" [.Func "g" [.Var "x"]], .Equal (.Var "x") (.Var "c0")]))
      m4 [] = .ok b := by
  have hx : TermHasSort sig4 [("x", "S")] (.Var "x") "S" :=
    .varBound _ _ _ (by decide)
  have hgx : TermHasSort sig4 [("x", "S")] (.Func "g" [.Var "x"]) "S" := by
    refine .func _ _ _ ["S"] _ (by decide) (by decide) ?_
    intro p hp
    simp only [List.zip_cons_cons, List.zip_nil_left, List.mem_singleton] at hp
    subst hp
    exact hx
  have hc0 : TermHasSort sig4 [("x", "S")] (.Var "c0") "S" :=
    .varConst _ _ _ (by decide) (by decide)
  refine c2_amended sig4 m4 _ (by decide) ⟨?_, ?_⟩ ?_
  · intro c s e h1 h2
    simp [sig4, alookup] at h1
    obtain ⟨rfl, rfl⟩ := h1
    simp [m4, alookup] at h2
    subst h2
    decide
  · intro f argSorts ret tbl t r h1 h2 h3
    simp [sig4, alookup] at h1
    obtain ⟨rfl, rfl, rfl⟩ := h1
    simp [m4, alookup] at h2
    subst h2
    have : t = [0] ∧ r = 0 := by
      rcases t with _ | ⟨t0, t1⟩
      · simp [alookup] at h3
      · rcases t1 with _ | _
        · by_cases h : t0 = 0
          · subst h; simp [alookup] at h3; exact ⟨rfl, h3.symm⟩
          · simp [alookup] at h3
            exact absurd h3.1.symm h
        · simp [alookup] at h3
    obtain ⟨rfl, rfl⟩ := this
    decide
  · refine .fa _ _ _ _ (.or _ _ ?_)
    intro c hcm
    simp only [List.mem_cons, List.mem_singleton, List.not_mem_nil, or_false] at hcm
    rcases hcm with rfl | rfl
    · refine .rel _ _ _ ["S"] (by decide) (by decide) ?_
      intro p hp
      simp only [List.zip_cons_cons, List.zip_nil_left, List.mem_singleton] at hp
      subst hp
      exact hgx
    · exact .equal _ _ _ "S" "S" hx hc0
